import Mathlib

/-!
Verification of the `eventhandler` package (`src/eventhandler/__init__.py`):
a shallow embedding of the `EventHandler` class and proofs about its
registration, linking, firing and queue-draining operations.

Modelling choices, each traced to the source:
* The private `__events` dict (event name → list of callbacks) is an
  insertion-ordered association list `List (String × List Nat)`; Python
  dicts preserve insertion order and `register_event` inserts at the end.
* A callback is identified by a `Nat` (Python object identity); its
  behaviour — whether `is_callable` accepts it, and whether calling it
  with given arguments raises — lives in a `CallbackEnv`, since in Python
  the identity of the object determines both.
* The private `__event_queue` deque is a `List (String × Args)` with the
  front at the head (`append` pushes at the tail, `loop` pops at the head).
* Python exceptions are modelled with `Except PyError`: the raw dict
  lookup in `fire`/`is_callback_in_event` can raise `KeyError`, `link`
  can raise `EventNotAllowedError`, and a callback exception in strict
  mode surfaces as `callbackError`.
* Observable callback side effects are the trace of invocations: a list
  of `(callback identity, arguments)` pairs in invocation order.
-/

/-- Positional and keyword arguments of a `fire` request
(`*args, **kwargs` in the source). -/
structure Args where
  pos : List Int
  kw : List (String × Int)
deriving DecidableEq, Repr

/-- Behaviour of Python callback objects, keyed by object identity:
`isCallable i` models `isinstance(func, (FunctionType, ...))` for object `i`,
and `raises i a` models whether calling object `i` with arguments `a`
raises an exception. -/
structure CallbackEnv where
  isCallable : Nat → Bool
  raises : Nat → Args → Bool

/-- Python exceptions the embedded methods can raise. -/
inductive PyError where
  /-- The `KeyError` raised by a raw `self.__events[event_name]` lookup. -/
  | keyError (name : String)
  /-- `EventHandler.Exceptions.EventNotAllowedError`. -/
  | eventNotAllowed (name : String)
  /-- An exception raised from inside callback `cb` and re-raised by `fire`. -/
  | callbackError (cb : Nat)
deriving DecidableEq, Repr

/-- The mutable state of an `EventHandler` instance: the `__events` dict,
the `__event_queue` deque, and the `tolerate_exceptions` flag
(`verbose` and `stream_output` only affect diagnostic printing, which has
no bearing on the verified behaviour). -/
structure EHState where
  events : List (String × List Nat)
  queue : List (String × Args)
  tolerate : Bool
deriving DecidableEq, Repr

/-- Dict lookup `es[name]` on the insertion-ordered registry. -/
def lookupEvent : List (String × List Nat) → String → Option (List Nat)
  | [], _ => none
  | (k, v) :: rest, name => if k = name then some v else lookupEvent rest name

/-- Dict update `es[name] = v` for a key already present (other entries and
the key order are untouched). -/
def updateEvent : List (String × List Nat) → String → List Nat → List (String × List Nat)
  | [], _, _ => []
  | (k, w) :: rest, name, v =>
    if k = name then (k, v) :: rest else (k, w) :: updateEvent rest name v

/-- `is_event_registered`: `event_name in self.__events`. -/
def is_event_registered (s : EHState) (name : String) : Bool :=
  (lookupEvent s.events name).isSome

/-- `count_events`: `len(self.event_list)`. -/
def count_events (s : EHState) : Nat :=
  s.events.length

/-- `register_event`: if the name is registered, return `False` without
mutating; otherwise insert it with an empty callback list and return
`True`. -/
def register_event (s : EHState) (name : String) : Bool × EHState :=
  if is_event_registered s name then (false, s)
  else (true, { s with events := s.events ++ [(name, [])] })

/-- `clear_events`: `self.__events = {}; return True` (the queue is not
cleared). -/
def clear_events (s : EHState) : Bool × EHState :=
  (true, { s with events := [] })

/-- `is_callback_in_event`: `return callback in self.__events[event_name]` —
a raw dict lookup, so an unregistered name raises `KeyError`. -/
def is_callback_in_event (s : EHState) (name : String) (cb : Nat) : Except PyError Bool :=
  match lookupEvent s.events name with
  | none => .error (.keyError name)
  | some cbs => .ok (decide (cb ∈ cbs))

/-- `link`: a non-callable value is a soft failure (`False`, no mutation);
an unregistered event raises `EventNotAllowedError`; an already-linked
callback is a soft failure; otherwise the callback is appended at the tail
and the result is `True`. -/
def link (env : CallbackEnv) (s : EHState) (cb : Nat) (name : String) :
    Except PyError (Bool × EHState) :=
  if ¬ env.isCallable cb then .ok (false, s)
  else
    match lookupEvent s.events name with
    | none => .error (.eventNotAllowed name)
    | some cbs =>
      if cb ∈ cbs then .ok (false, s)
      else .ok (true, { s with events := updateEvent s.events name (cbs ++ [cb]) })

/-- `unlink`: an unregistered event is reported and `False` is returned
(the source does not raise here); an unlinked callback returns `False`;
otherwise `list.remove` drops the first occurrence and the result is
`True`.  The `Except` result type mirrors `link`'s for comparison: every
branch of the source returns normally, so every branch here is `.ok`. -/
def unlink (s : EHState) (cb : Nat) (name : String) : Except PyError (Bool × EHState) :=
  match lookupEvent s.events name with
  | none => .ok (false, s)
  | some cbs =>
    if cb ∈ cbs then .ok (true, { s with events := updateEvent s.events name (cbs.erase cb) })
    else .ok (false, s)

/-- The `for callback in self.__events[event_name]` loop of `fire`: each
callback is invoked in list order with the same arguments (the trace
records each invocation); a raising callback either aborts with its
exception (strict mode) or flips `all_ok` to `False` and continues
(tolerant mode). -/
def runCallbacks (env : CallbackEnv) (tolerate : Bool) (args : Args) :
    List Nat → Except PyError Bool × List (Nat × Args)
  | [] => (.ok true, [])
  | cb :: rest =>
    if env.raises cb args then
      if tolerate then
        let (r, t) := runCallbacks env tolerate args rest
        (match r with
         | .ok _ => .ok false
         | .error e => .error e, (cb, args) :: t)
      else (.error (.callbackError cb), [(cb, args)])
    else
      let (r, t) := runCallbacks env tolerate args rest
      (r, (cb, args) :: t)

/-- `fire`: a raw lookup of `event_name` (so an unregistered name raises
`KeyError` before any callback runs), then the callbacks run in order via
`runCallbacks` and the `all_ok` flag is returned. -/
def fire (env : CallbackEnv) (s : EHState) (name : String) (args : Args) :
    Except PyError Bool × List (Nat × Args) :=
  match lookupEvent s.events name with
  | none => (.error (.keyError name), [])
  | some cbs => runCallbacks env s.tolerate args cbs

/-- `append`: push `(event_name, args, kwargs)` onto the tail of the
queue, without validating the name and without invoking anything. -/
def append (s : EHState) (name : String) (args : Args) : EHState :=
  { s with queue := s.queue ++ [(name, args)] }

/-- A sequence of `append` calls, in order. -/
def appendAll (s : EHState) (rs : List (String × Args)) : EHState :=
  rs.foldl (fun st p => append st p.1 p.2) s

/-- The `while self.__event_queue:` loop of `loop`, recursing over the
pending requests: each popped request is fired and its result is ANDed
into `all_ok`; an exception propagates at once, leaving the remaining
requests (third component) un-drained. -/
def loopAux (env : CallbackEnv) (s : EHState) :
    List (String × Args) → Except PyError Bool × List (Nat × Args) × List (String × Args)
  | [] => (.ok true, [], [])
  | (name, args) :: rest =>
    let (r, t) := fire env s name args
    match r with
    | .error e => (.error e, t, rest)
    | .ok b =>
      let (r2, t2, q2) := loopAux env s rest
      (match r2 with
       | .error e => .error e
       | .ok b2 => .ok (b && b2), t ++ t2, q2)

/-- `loop`: drain the queue front-to-back with `fire`, returning the
conjunction of the individual results, the full invocation trace, and the
final state (whatever part of the queue was not drained remains). -/
def loop (env : CallbackEnv) (s : EHState) :
    Except PyError Bool × List (Nat × Args) × EHState :=
  let (r, t, q) := loopAux env s s.queue
  (r, t, { s with queue := q })

/-- Specification-side reference for `append`/`loop` equivalence, written
from the spec's words: call `fire` directly on each request in sequence,
combine the results with logical AND, and let the first unhandled
exception propagate (aborting the remaining direct calls). -/
def directFireSequence (env : CallbackEnv) (s : EHState) :
    List (String × Args) → Except PyError Bool × List (Nat × Args)
  | [] => (.ok true, [])
  | (name, args) :: rest =>
    let (r, t) := fire env s name args
    match r with
    | .error e => (.error e, t)
    | .ok b =>
      let (r2, t2) := directFireSequence env s rest
      (match r2 with
       | .error e => .error e
       | .ok b2 => .ok (b && b2), t ++ t2)

/-! ## Helper lemmas about the registry and the callback loop -/

/-- A successful dict lookup exhibits the entry in the registry. -/
theorem lookupEvent_mem {es : List (String × List Nat)} {name : String} {cbs : List Nat}
    (h : lookupEvent es name = some cbs) : (name, cbs) ∈ es := by
  induction es with
  | nil => simp [lookupEvent] at h
  | cons q rest ih =>
    obtain ⟨k, w⟩ := q
    by_cases hk : k = name
    · subst hk
      simp [lookupEvent] at h
      subst h
      exact List.mem_cons_self _ _
    · simp [lookupEvent, hk] at h
      exact List.mem_cons_of_mem _ (ih h)

/-- Every entry of an updated registry is either an original entry or
carries the new value. -/
theorem mem_updateEvent {es : List (String × List Nat)} {name : String} {v : List Nat}
    {p : String × List Nat} (hp : p ∈ updateEvent es name v) : p ∈ es ∨ p.2 = v := by
  induction es with
  | nil => simp [updateEvent] at hp
  | cons q rest ih =>
    obtain ⟨k, w⟩ := q
    by_cases hk : k = name
    · subst hk
      simp [updateEvent] at hp
      rcases hp with hp | hp
      · right; rw [hp]
      · left; exact List.mem_cons_of_mem _ hp
    · simp [updateEvent, hk] at hp
      rcases hp with hp | hp
      · left; simp [hp]
      · rcases ih hp with hp | hp
        · left; exact List.mem_cons_of_mem _ hp
        · right; exact hp

/-- If no callback raises, every callback runs in list order with the
given arguments and the loop reports success, in either mode. -/
theorem runCallbacks_no_raise (env : CallbackEnv) (tol : Bool) (args : Args)
    (cbs : List Nat) (h : ∀ c ∈ cbs, env.raises c args = false) :
    runCallbacks env tol args cbs = (.ok true, cbs.map fun c => (c, args)) := by
  induction cbs with
  | nil => simp [runCallbacks]
  | cons c cbs ih =>
    have hc : env.raises c args = false := h c (List.mem_cons_self _ _)
    have ih' := ih fun d hd => h d (List.mem_cons_of_mem _ hd)
    simp [runCallbacks, hc, ih']

/-- In tolerant mode every callback runs in list order and the result is
the conjunction of the individual outcomes. -/
theorem runCallbacks_tolerant (env : CallbackEnv) (args : Args) (cbs : List Nat) :
    runCallbacks env true args cbs =
      (.ok (cbs.all fun c => !env.raises c args), cbs.map fun c => (c, args)) := by
  induction cbs with
  | nil => simp [runCallbacks]
  | cons c cbs ih =>
    by_cases hc : env.raises c args <;> simp [runCallbacks, hc, ih]

/-- In strict mode the first raising callback aborts the loop: the
callbacks before it and itself are invoked, its exception is re-raised,
and nothing after it runs. -/
theorem runCallbacks_strict_raise (env : CallbackEnv) (args : Args) (post : List Nat)
    (cb : Nat) (hcb : env.raises cb args = true) (pre : List Nat)
    (hpre : ∀ c ∈ pre, env.raises c args = false) :
    runCallbacks env false args (pre ++ cb :: post) =
      (.error (.callbackError cb), pre.map (fun c => (c, args)) ++ [(cb, args)]) := by
  induction pre with
  | nil => simp [runCallbacks, hcb]
  | cons c pre ih =>
    have hc : env.raises c args = false := hpre c (List.mem_cons_self _ _)
    have ih' := ih fun d hd => hpre d (List.mem_cons_of_mem _ hd)
    simp [runCallbacks, hc, ih']

/-- `append` only grows the queue: a run of `append` calls leaves the
registry and the tolerance flag alone and pushes the requests, in order,
onto the tail of the queue. -/
theorem appendAll_spec (rs : List (String × Args)) : ∀ s : EHState,
    appendAll s rs = { s with queue := s.queue ++ rs } := by
  induction rs with
  | nil => intro s; simp [appendAll]
  | cons p rs ih =>
    intro s
    obtain ⟨n, a⟩ := p
    have h1 : appendAll s ((n, a) :: rs) = appendAll (append s n a) rs := rfl
    rw [h1, ih]
    simp [append]

/-- `fire` reads only the registry and the tolerance flag, never the
queue. -/
theorem fire_queue_irrelevant (env : CallbackEnv) (s : EHState) (q : List (String × Args))
    (name : String) (args : Args) :
    fire env { s with queue := q } name args = fire env s name args := rfl

/-- The drain loop is insensitive to the queue field of the state it
fires against (it fires against the registry only). -/
theorem loopAux_queue_irrelevant (env : CallbackEnv) (s : EHState) (q : List (String × Args))
    (l : List (String × Args)) :
    loopAux env { s with queue := q } l = loopAux env s l := by
  induction l with
  | nil => rfl
  | cons p l ih =>
    obtain ⟨n, a⟩ := p
    simp only [loopAux, fire_queue_irrelevant, ih]

/-- Draining the pending list agrees with firing each request directly,
in the same order: same outcome, same invocation trace; and when no
exception escapes, the pending list is fully consumed. -/
theorem loopAux_eq_directFireSequence (env : CallbackEnv) (s : EHState)
    (rs : List (String × Args)) :
    (loopAux env s rs).1 = (directFireSequence env s rs).1 ∧
    (loopAux env s rs).2.1 = (directFireSequence env s rs).2 ∧
    (∀ b, (loopAux env s rs).1 = .ok b → (loopAux env s rs).2.2 = []) := by
  induction rs with
  | nil => simp [loopAux, directFireSequence]
  | cons p rs ih =>
    obtain ⟨name, args⟩ := p
    obtain ⟨ih1, ih2, ih3⟩ := ih
    rcases hf : fire env s name args with ⟨r, t⟩
    rcases r with e | b
    · simp [loopAux, directFireSequence, hf]
    · rcases hl : loopAux env s rs with ⟨r2, t2, q2⟩
      rcases hd : directFireSequence env s rs with ⟨r2f, t2f⟩
      rw [hl, hd] at ih1 ih2
      rw [hl] at ih3
      simp only at ih1 ih2 ih3
      rcases r2 with e2 | b2
      · refine ⟨?_, ?_, ?_⟩ <;>
          simp [loopAux, directFireSequence, hf, hl, hd, ← ih1, ih2]
      · have hq : q2 = [] := ih3 b2 rfl
        refine ⟨?_, ?_, ?_⟩ <;>
          simp [loopAux, directFireSequence, hf, hl, hd, ← ih1, ih2, hq]

/-! ## Concrete fixtures used by the witnesses and counterexamples -/

/-- Sample arguments. -/
def argsW : Args := { pos := [7], kw := [("k", 1)] }

/-- Sample callback environment: object `99` is not callable; callback
`1` raises on every call; every other callback succeeds. -/
def envW : CallbackEnv :=
  { isCallable := fun c => decide (c ≠ 99), raises := fun c _ => decide (c = 1) }

/-- A strict-mode handler with events `ping` (callbacks 0, 2) and `boom`
(callbacks 0, 1, 2), empty queue. -/
def sW : EHState :=
  { events := [("ping", [0, 2]), ("boom", [0, 1, 2])], queue := [], tolerate := false }

/-- The same registry in tolerant mode. -/
def sWT : EHState :=
  { events := [("ping", [0, 2]), ("boom", [0, 1, 2])], queue := [], tolerate := true }

/-- Does a `fire` outcome consist of a raised `EventNotAllowedError`? -/
def fireRaisesEventNotAllowed : Except PyError Bool → Bool
  | .error (.eventNotAllowed _) => true
  | _ => false

/-- Does a `link`/`unlink` outcome consist of a raised exception? -/
def resultRaises : Except PyError (Bool × EHState) → Bool
  | .error _ => true
  | .ok _ => false

/-! ## The claims -/

/-- Claim C7: registering an already-present name performs no mutation
(the state, hence that event's callback sequence and the event count, is
unchanged) and returns `false`; registering an absent name appends it
with an empty callback sequence and returns `true`. -/
theorem register_event_idempotent (s : EHState) (name : String) :
    (is_event_registered s name = true →
      register_event s name = (false, s) ∧
      count_events (register_event s name).2 = count_events s) ∧
    (is_event_registered s name = false →
      register_event s name = (true, { s with events := s.events ++ [(name, [])] })) := by
  constructor <;> intro h <;> simp [register_event, h]

/-- Witness for C7 on a concrete registry. -/
theorem register_event_idempotent_witness :
    register_event sW "ping" = (false, sW) ∧
    register_event sW "pong" = (true, { sW with events := sW.events ++ [("pong", [])] }) :=
  ⟨((register_event_idempotent sW "ping").1 (by decide)).1,
   (register_event_idempotent sW "pong").2 (by decide)⟩

/-- Claim C9: a value that fails the invocable check makes `link` return
`false` with no exception and no mutation; the check precedes the
registration check, so this holds for any event name, registered or
not. -/
theorem link_noncallable_soft_failure (env : CallbackEnv) (s : EHState) (cb : Nat)
    (name : String) (h : env.isCallable cb = false) :
    link env s cb name = .ok (false, s) := by
  simp [link, h]

/-- Witness for C9: the non-callable object `99` and an unregistered
event name. -/
theorem link_noncallable_soft_failure_witness :
    link envW sW 99 "nope" = .ok (false, sW) :=
  link_noncallable_soft_failure envW sW 99 "nope" (by decide)

/-- Claim C10: querying `is_callback_in_event` with an unregistered event
name raises `KeyError` — the raw lookup failure, not the dedicated
`EventNotAllowedError`, and not a `false` result. -/
theorem is_callback_in_event_unregistered_keyError (s : EHState) (name : String) (cb : Nat)
    (h : lookupEvent s.events name = none) :
    is_callback_in_event s name cb = .error (.keyError name) ∧
    (∀ m, is_callback_in_event s name cb ≠ .error (.eventNotAllowed m)) ∧
    (∀ b, is_callback_in_event s name cb ≠ .ok b) := by
  refine ⟨by simp [is_callback_in_event, h], ?_, ?_⟩ <;>
    intro x <;> simp [is_callback_in_event, h]

/-- Witness for C10. -/
theorem is_callback_in_event_unregistered_keyError_witness :
    is_callback_in_event sW "gone" 0 = .error (.keyError "gone") :=
  (is_callback_in_event_unregistered_keyError sW "gone" 0 (by decide)).1

/-- Counterexample to claim C1 as stated: after `clear_events`, firing a
previously registered event raises `KeyError` from the raw dict lookup,
not the dedicated `EventNotAllowedError` the spec names. -/
theorem fire_unregistered_counterexample :
    fire envW (clear_events sW).2 "ping" argsW = (.error (.keyError "ping"), []) ∧
    fireRaisesEventNotAllowed (fire envW (clear_events sW).2 "ping" argsW).1 = false := by
  constructor <;> rfl

/-- Claim C1 (amended): firing an event name not present in the registry —
in particular any name at all after `clear_events` — raises `KeyError`
(an uncontrolled lookup failure, not `EventNotAllowedError`) and invokes
no callback. -/
theorem fire_unregistered_keyError_no_callback (env : CallbackEnv) (s : EHState)
    (name : String) (args : Args) :
    (lookupEvent s.events name = none →
      fire env s name args = (.error (.keyError name), [])) ∧
    fire env (clear_events s).2 name args = (.error (.keyError name), []) := by
  constructor
  · intro h; simp [fire, h]
  · rfl

/-- Witness for the amended C1. -/
theorem fire_unregistered_keyError_no_callback_witness :
    fire envW sW "missing" argsW = (.error (.keyError "missing"), []) :=
  (fire_unregistered_keyError_no_callback envW sW "missing" argsW).1 (by decide)

/-- Counterexample to claim C2 as stated: `unlink` on an unregistered
event name returns normally with `false`; it raises nothing. -/
theorem unlink_unregistered_counterexample :
    unlink sW 0 "gone" = .ok (false, sW) ∧
    resultRaises (unlink sW 0 "gone") = false := by
  constructor <;> rfl

/-- Claim C2 (amended): `unlink` with an unregistered event name is a
soft failure — it returns `false` without raising and without mutating
the state — unlike `link`, which raises `EventNotAllowedError` for the
same name (when the callback passes the invocable check). -/
theorem unlink_unregistered_returns_false (env : CallbackEnv) (s : EHState) (cb : Nat)
    (name : String) (h : lookupEvent s.events name = none) :
    unlink s cb name = .ok (false, s) ∧
    (env.isCallable cb = true → link env s cb name = .error (.eventNotAllowed name)) := by
  constructor
  · simp [unlink, h]
  · intro hc; simp [link, hc, h]

/-- Witness for the amended C2. -/
theorem unlink_unregistered_returns_false_witness :
    unlink sW 0 "gone" = .ok (false, sW) ∧
    link envW sW 0 "gone" = .error (.eventNotAllowed "gone") :=
  ⟨(unlink_unregistered_returns_false envW sW 0 "gone" (by decide)).1,
   (unlink_unregistered_returns_false envW sW 0 "gone" (by decide)).2 (by decide)⟩

/-- Claim C3: in strict mode, if the callbacks of a registered event are
`pre ++ cb :: post` where nothing in `pre` raises and `cb` raises, then
`fire` propagates `cb`'s exception and the invocation trace stops at
`cb` — no callback after it is invoked. -/
theorem fire_strict_stops_at_first_raise (env : CallbackEnv) (s : EHState) (name : String)
    (args : Args) (pre post : List Nat) (cb : Nat)
    (hreg : lookupEvent s.events name = some (pre ++ cb :: post))
    (htol : s.tolerate = false)
    (hpre : ∀ c ∈ pre, env.raises c args = false)
    (hcb : env.raises cb args = true) :
    fire env s name args =
      (.error (.callbackError cb), pre.map (fun c => (c, args)) ++ [(cb, args)]) := by
  simp [fire, hreg, htol, runCallbacks_strict_raise env args post cb hcb pre hpre]

/-- Witness for C3: firing `boom` in strict mode runs callback 0, then
callback 1 raises and the exception propagates; callback 2 never runs. -/
theorem fire_strict_stops_at_first_raise_witness :
    fire envW sW "boom" argsW =
      (.error (.callbackError 1), [0].map (fun c => (c, argsW)) ++ [(1, argsW)]) :=
  fire_strict_stops_at_first_raise envW sW "boom" argsW [0] [2] 1
    (by decide) rfl (by decide) (by decide)

/-- Claim C4: in tolerant mode, `fire` on a registered event invokes
every linked callback in order even when earlier ones raise, never
propagates a callback exception (the outcome is `.ok`), and its boolean
result is true exactly when no callback raised. -/
theorem fire_tolerant_runs_all (env : CallbackEnv) (s : EHState) (name : String)
    (args : Args) (cbs : List Nat)
    (hreg : lookupEvent s.events name = some cbs) (htol : s.tolerate = true) :
    fire env s name args =
      (.ok (cbs.all fun c => !env.raises c args), cbs.map fun c => (c, args)) ∧
    ((cbs.all fun c => !env.raises c args) = true ↔
      ∀ c ∈ cbs, env.raises c args = false) := by
  refine ⟨?_, ?_⟩
  · simp [fire, hreg, htol, runCallbacks_tolerant]
  · simp [List.all_eq_true]

/-- Witness for C4: firing `boom` in tolerant mode runs callbacks 0, 1
and 2; callback 1's exception is swallowed and the result is `false`. -/
theorem fire_tolerant_runs_all_witness :
    fire envW sWT "boom" argsW = (.ok false, [(0, argsW), (1, argsW), (2, argsW)]) :=
  ((fire_tolerant_runs_all envW sWT "boom" argsW [0, 1, 2] (by decide) rfl).1).trans
    (by rfl)

/-- Claim C5: `fire` on a registered event invokes the linked callbacks
strictly in the order they were linked, passing the identical arguments
to every callback: the invocation trace is exactly the callback sequence,
in order, paired with the one argument record (stated for the cases in
which every callback is invoked — tolerant mode, or no callback
raising). -/
theorem fire_invokes_in_link_order (env : CallbackEnv) (s : EHState) (name : String)
    (args : Args) (cbs : List Nat)
    (hreg : lookupEvent s.events name = some cbs)
    (h : s.tolerate = true ∨ ∀ c ∈ cbs, env.raises c args = false) :
    (fire env s name args).2 = cbs.map fun c => (c, args) := by
  rcases h with h | h
  · simp [fire, hreg, h, runCallbacks_tolerant]
  · simp [fire, hreg, runCallbacks_no_raise env s.tolerate args cbs h]

/-- Witness for C5: firing `ping` (strict mode, no raiser) invokes
callback 0 then callback 2, both with the same arguments. -/
theorem fire_invokes_in_link_order_witness :
    (fire envW sW "ping" argsW).2 = [(0, argsW), (2, argsW)] :=
  (fire_invokes_in_link_order envW sW "ping" argsW [0, 2] (by decide)
    (Or.inr (by decide))).trans (by rfl)

/-- Claim C6: appending a sequence of requests to an (initially empty)
queue and then calling `loop` drains them front-to-back: the outcome
(the AND of the individual fire results, or the first escaping
exception) and the invocation trace equal those of firing each request
directly, in the same order; and when `loop` returns normally the queue
is empty. -/
theorem append_loop_refines_direct_fire (env : CallbackEnv) (s : EHState)
    (rs : List (String × Args)) (h : s.queue = []) :
    (loop env (appendAll s rs)).1 = (directFireSequence env s rs).1 ∧
    (loop env (appendAll s rs)).2.1 = (directFireSequence env s rs).2 ∧
    (∀ b, (loop env (appendAll s rs)).1 = .ok b →
      (loop env (appendAll s rs)).2.2.queue = []) := by
  rw [appendAll_spec, h]
  simp only [List.nil_append]
  obtain ⟨h1, h2, h3⟩ := loopAux_eq_directFireSequence env s rs
  rcases hl : loopAux env s rs with ⟨r, t, q⟩
  rw [hl] at h1 h2 h3
  have hloop : loop env { s with queue := rs } = (r, t, { s with queue := q }) := by
    simp [loop, loopAux_queue_irrelevant env s rs rs, hl]
  rw [hloop]
  exact ⟨h1, h2, fun b hb => h3 b hb⟩

/-- Witness for C6 in tolerant mode: two appended requests drain in FIFO
order with the same trace and conjoined result as two direct fires, and
the queue ends empty. -/
theorem append_loop_refines_direct_fire_witness :
    (loop envW (appendAll sWT [("ping", argsW), ("boom", argsW)])).1 =
      (directFireSequence envW sWT [("ping", argsW), ("boom", argsW)]).1 ∧
    (loop envW (appendAll sWT [("ping", argsW), ("boom", argsW)])).2.1 =
      (directFireSequence envW sWT [("ping", argsW), ("boom", argsW)]).2 ∧
    (loop envW (appendAll sWT [("ping", argsW), ("boom", argsW)])).2.2.queue = [] := by
  obtain ⟨h1, h2, h3⟩ :=
    append_loop_refines_direct_fire envW sWT [("ping", argsW), ("boom", argsW)] rfl
  exact ⟨h1, h2, h3 false (by rfl)⟩

/-- Claim C8: linking a callback already linked to an event (identity
match) returns `false` and leaves the state unchanged, and the
no-duplicate invariant on every event's callback sequence is preserved
by `link` (as well as by `register_event`, `unlink` and
`clear_events`), so no sequence ever contains duplicates. -/
theorem link_duplicate_false_nodup_preserved (env : CallbackEnv) (s : EHState) (cb : Nat)
    (name : String) (hnd : ∀ p ∈ s.events, p.2.Nodup) :
    (∀ cbs, lookupEvent s.events name = some cbs → cb ∈ cbs →
      link env s cb name = .ok (false, s)) ∧
    (∀ r s2, link env s cb name = .ok (r, s2) → ∀ p ∈ s2.events, p.2.Nodup) ∧
    (∀ p ∈ (register_event s name).2.events, p.2.Nodup) ∧
    (∀ r s2, unlink s cb name = .ok (r, s2) → ∀ p ∈ s2.events, p.2.Nodup) ∧
    (∀ p ∈ (clear_events s).2.events, p.2.Nodup) := by
  refine ⟨?_, ?_, ?_, ?_, ?_⟩
  · intro cbs hreg hmem
    by_cases hc : env.isCallable cb
    · simp [link, hc, hreg, hmem]
    · simp [link, hc]
  · intro r s2 hlink p hp
    by_cases hc : env.isCallable cb
    · rcases hreg : lookupEvent s.events name with _ | cbs
      · simp [link, hc, hreg] at hlink
      · by_cases hm : cb ∈ cbs
        · simp [link, hc, hreg, hm] at hlink
          obtain ⟨-, hs⟩ := hlink
          subst hs
          exact hnd p hp
        · simp [link, hc, hreg, hm] at hlink
          obtain ⟨-, hs⟩ := hlink
          subst hs
          rcases mem_updateEvent hp with hp | hp
          · exact hnd p hp
          · rw [hp]
            have hcbs : cbs.Nodup := hnd (name, cbs) (lookupEvent_mem hreg)
            simp [List.nodup_append, hcbs, hm]
    · simp [link, hc] at hlink
      obtain ⟨-, hs⟩ := hlink
      subst hs
      exact hnd p hp
  · by_cases hr : is_event_registered s name
    · simpa [register_event, hr] using hnd
    · intro p hp
      simp [register_event, hr] at hp
      rcases hp with hp | hp
      · exact hnd p hp
      · simp [hp]
  · intro r s2 hun p hp
    rcases hreg : lookupEvent s.events name with _ | cbs
    · simp [unlink, hreg] at hun
      obtain ⟨-, hs⟩ := hun
      subst hs
      exact hnd p hp
    · by_cases hm : cb ∈ cbs
      · simp [unlink, hreg, hm] at hun
        obtain ⟨-, hs⟩ := hun
        subst hs
        rcases mem_updateEvent hp with hp | hp
        · exact hnd p hp
        · rw [hp]
          exact (hnd (name, cbs) (lookupEvent_mem hreg)).erase cb
      · simp [unlink, hreg, hm] at hun
        obtain ⟨-, hs⟩ := hun
        subst hs
        exact hnd p hp
  · simp [clear_events]

/-- Witness for C8: relinking callback 0 to `ping` returns `false` and
changes nothing. -/
theorem link_duplicate_false_nodup_preserved_witness :
    link envW sW 0 "ping" = .ok (false, sW) :=
  (link_duplicate_false_nodup_preserved envW sW 0 "ping" (by decide)).1
    [0, 2] (by decide) (by decide)
